import Mathlib

/-!
# Klon clone core: shallow embedding and verification

This file embeds the core of the Klon disk-cloning tool (Go) in Lean:
device-name arithmetic, the system probe parser, the planner, the safety
checker, the execution-step builder, the command runner's destination guard,
the rsync command builder and the parallel root sync, together with theorems
about the behaviour of these functions.

Strings are modelled as `List Char` (`Str`), matching Go's byte-oriented
string scans character by character for the ASCII device names and command
lines the tool manipulates.
-/

namespace Klon

/-- Character-list model of a Go string. -/
abbrev Str := List Char

/-- Embed a Lean string literal as a character list. -/
def str (s : String) : Str := s.data

/-- `'0' <= c && c <= '9'`, the byte-range digit test used by the Go sources. -/
def isDigitChar (c : Char) : Bool := 48 ≤ c.toNat && c.toNat ≤ 57

/-- ASCII lowercase letter (used to describe `sd*`-style disk basenames). -/
def isLowerAlpha (c : Char) : Bool := 97 ≤ c.toNat && c.toNat ≤ 122

/-- Go `strings.HasPrefix s pre`. -/
def goHasPrefix (s pre : Str) : Bool := pre.isPrefixOf s

/-- Go `strings.HasSuffix s suf`. -/
def goHasSuffix (s suf : Str) : Bool := suf.isSuffixOf s

/-- Go `strings.TrimPrefix s pre`. -/
def goTrimPrefix (s pre : Str) : Str :=
  if goHasPrefix s pre then s.drop pre.length else s

/-- Go `strings.Contains s sub` (substring occurrence). -/
def goContains (s sub : Str) : Bool :=
  match s with
  | [] => sub.isEmpty
  | c :: t => sub.isPrefixOf (c :: t) || goContains t sub

/-- ASCII whitespace, the fragment of `unicode.IsSpace` relevant to the
mount tables and command lines handled here. -/
def isSpaceChar (c : Char) : Bool :=
  c = ' ' || c = '\t' || c = '\n' || c = '\r' || c = '\x0b' || c = '\x0c'

/-- Go `strings.TrimSpace` (on ASCII whitespace). -/
def goTrimSpace (s : Str) : Str :=
  ((s.dropWhile isSpaceChar).reverse.dropWhile isSpaceChar).reverse

theorem length_dropWhile_le (p : Char → Bool) (l : List Char) :
    (l.dropWhile p).length ≤ l.length := by
  induction l with
  | nil => simp [List.dropWhile]
  | cons c t ih =>
    by_cases h : p c <;> simp [List.dropWhile, h] <;> omega

/-- Helper of `goFields`: scan with the current (reversed) field. -/
def fieldsAux : Str → Str → List Str
  | [], acc => if acc = [] then [] else [acc.reverse]
  | c :: t, acc =>
    if isSpaceChar c then
      if acc = [] then fieldsAux t [] else acc.reverse :: fieldsAux t []
    else fieldsAux t (c :: acc)

/-- Go `strings.Fields`: maximal runs of non-whitespace characters, in
order; no empty fields. -/
def goFields (l : Str) : List Str := fieldsAux l []

/-- Split on a separator character; used for Go `strings.Split(s, "\n")`
and for path cleaning. Every separator produces a boundary, so empty
pieces are kept (as in Go's `strings.Split`). -/
def splitOnChar (sep : Char) : Str → List Str
  | [] => [[]]
  | c :: t =>
    if c = sep then [] :: splitOnChar sep t
    else
      match splitOnChar sep t with
      | [] => [[c]]
      | piece :: rest => (c :: piece) :: rest

/-- The lines produced by a `bufio.Scanner` over `s`: split on `'\n'`,
dropping one trailing `'\r'` per line. (A trailing newline yields a final
empty line here where the scanner yields none; every consumer below
skips lines with fewer than two fields, so this is observationally equal.) -/
def goLines (s : Str) : List Str :=
  (splitOnChar '\n' s).map (fun ln => if ln.getLast? = some '\r' then ln.dropLast else ln)

/-- Decimal value of a digit string; `none` unless nonempty and all digits. -/
def digitsVal? (l : Str) : Option Nat :=
  if l = [] then none
  else if l.all isDigitChar then
    some (l.foldl (fun a c => a * 10 + (c.toNat - 48)) 0)
  else none

/-- Go `strconv.Atoi` (64-bit `int`): optional sign, decimal digits,
error outside the `int64` range. -/
def goAtoi (l : Str) : Option Int :=
  match l with
  | [] => none
  | c :: t =>
    if c = '+' then
      (digitsVal? t).bind (fun n => if n ≤ 2 ^ 63 - 1 then some (Int.ofNat n) else none)
    else if c = '-' then
      (digitsVal? t).bind (fun n => if n ≤ 2 ^ 63 then some (-(Int.ofNat n)) else none)
    else
      (digitsVal? (c :: t)).bind (fun n => if n ≤ 2 ^ 63 - 1 then some (Int.ofNat n) else none)

/-- Go `strconv.ParseUint(s, 10, 64)`: decimal digits, below `2^64`. -/
def goParseUint (l : Str) : Option Nat :=
  (digitsVal? l).bind (fun n => if n < 2 ^ 64 then some n else none)

/-- Decimal rendering of a natural number (Go `fmt.Sprintf("%d", n)`). -/
def natChars (n : Nat) : Str := Nat.toDigits 10 n

/-- Decimal rendering of a Go `int` under `%d`. -/
def intChars (i : Int) : Str :=
  if i < 0 then '-' :: natChars i.natAbs else natChars i.toNat

/-- Join strings with single spaces (Go `strings.Join(parts, " ")`). -/
def joinSpace : List Str → Str
  | [] => []
  | [x] => x
  | x :: y :: t => x ++ ' ' :: joinSpace (y :: t)

/-- Join strings with `", "` (Go `strings.Join(parts, ", ")`). -/
def joinCommaSpace : List Str → Str
  | [] => []
  | [x] => x
  | x :: y :: t => x ++ ',' :: ' ' :: joinCommaSpace (y :: t)

/-- Join strings with `'/'` (used by path cleaning). -/
def joinSlash : List Str → Str
  | [] => []
  | [x] => x
  | x :: y :: t => x ++ '/' :: joinSlash (y :: t)

/-- Go `path.Clean` on slash-separated paths (the part of `filepath.Clean`
exercised on Unix): drop empty and `"."` components, resolve `".."`
against preceding components, keep rootedness, default to `"."`. -/
def cleanPath (p : Str) : Str :=
  if p = [] then str "."
  else
    let rooted := p.head? = some '/'
    let comps := (splitOnChar '/' p).filter (fun c => c ≠ [] && c ≠ str ".")
    let stack := comps.foldl
      (fun acc c =>
        if c = str ".." then
          match acc with
          | [] => if rooted then [] else [str ".."]
          | top :: rest => if top = str ".." then c :: acc else rest
        else c :: acc) []
    let body := joinSlash stack.reverse
    let res := if rooted then '/' :: body else body
    if res = [] then str "." else res

/-- Go `filepath.Join(a, b)`: join the non-empty elements with `'/'` and
clean; empty when both elements are empty. -/
def joinPath (a b : Str) : Str :=
  if a = [] && b = [] then []
  else if a = [] then cleanPath b
  else if b = [] then cleanPath a
  else cleanPath (a ++ '/' :: b)

/-! ## Device-name functions (pkg/clone) -/

/-- `ensureDevPrefix` (Go): prepend `"/dev/"` unless empty or already present. -/
def ensureDevPrefix (name : Str) : Str :=
  if name = [] then []
  else if goHasPrefix name (str "/dev/") then name
  else str "/dev/" ++ name

/-- Strip the run of trailing decimal digits (the partition number). -/
def stripTrailingDigits (s : Str) : Str :=
  (s.reverse.dropWhile isDigitChar).reverse

/-- `baseDiskFromDevice` (Go, system probe): `"/dev/mmcblk0p2" ↦ "/dev/mmcblk0"`,
`"/dev/sda1" ↦ "/dev/sda"`; inputs without the `"/dev/"` prefix are returned
unchanged. -/
def baseDiskFromDevice (dev : Str) : Str :=
  if ¬ goHasPrefix dev (str "/dev/") then dev
  else
    let s := stripTrailingDigits dev
    if goHasSuffix s (str "p") && (goContains s (str "mmcblk") || goContains s (str "nvme"))
    then s.dropLast else s

/-- `sameDisk` (Go, safety checker): equality after `/dev/`-prefix and
base-disk normalisation. -/
def sameDisk (a b : Str) : Bool :=
  baseDiskFromDevice (ensureDevPrefix a) = baseDiskFromDevice (ensureDevPrefix b)

/-- The suffix strictly after the last `'p'` of `l`, when `'p'` occurs
(Go `strings.LastIndex(name, "p")` followed by `name[idx+1:]`). -/
def afterLastP (l : Str) : Option Str :=
  if 'p' ∈ l then some ((l.reverse.takeWhile (fun c => c ≠ 'p')).reverse) else none

/-- The maximal run of trailing digits (Go's right-to-left scan). -/
def trailingDigits (l : Str) : Str :=
  (l.reverse.takeWhile isDigitChar).reverse

/-- `looksLikePartition` (Go, safety checker): `mmcblk`/`nvme` names with a
`p<digits>` suffix, otherwise any name ending in a digit. -/
def looksLikePartition (dev : Str) : Bool :=
  let name := goTrimPrefix dev (str "/dev/")
  if goHasPrefix name (str "mmcblk") || goHasPrefix name (str "nvme") then
    match afterLastP name with
    | some suf => suf ≠ [] && (goAtoi suf).isSome
    | none => false
  else
    match name.getLast? with
    | none => false
    | some c => isDigitChar c

/-- `partitionDevice` (Go, runner): append `p<N>` for `mmcblk`/`nvme`
basenames and `<N>` otherwise. -/
def partitionDevice (disk : Str) (index : Int) : Str :=
  let base := ensureDevPrefix disk
  let name := goTrimPrefix base (str "/dev/")
  if goHasPrefix name (str "mmcblk") || goHasPrefix name (str "nvme") then
    str "/dev/" ++ name ++ 'p' :: intChars index
  else
    str "/dev/" ++ name ++ intChars index

/-- `partitionIndexFromDevice` (Go, planner): the numeric index from a
partition device path; first the suffix after the last `'p'`, then the
trailing digits; `0` when neither parses. -/
def partitionIndexFromDevice (dev : Str) : Int :=
  let name := goTrimPrefix dev (str "/dev/")
  if name = [] then 0
  else
    let fallback : Int :=
      let part := trailingDigits name
      if part = [] then 0
      else match goAtoi part with
        | some n => n
        | none => 0
    match afterLastP name with
    | some suf =>
      if suf ≠ [] then
        match goAtoi suf with
        | some n => n
        | none => fallback
      else fallback
    | none => fallback

/-! ## System probe (system_local.go) -/

/-- A mounted partition as reported by the probe. -/
structure MountedPartition where
  Device : Str := []
  Mountpoint : Str := []
deriving DecidableEq, Repr

/-- `parseRootDevice` (Go): the device of the first mount-table line whose
second field is `"/"`; `none` models the "root mount not found" error. -/
def parseRootDevice (mounts : Str) : Option Str :=
  (goLines mounts).findSome? (fun line =>
    match goFields line with
    | dev :: mp :: _ => if mp = str "/" then some dev else none
    | _ => none)

/-- `BootDisk` (Go): the root device from the mount table, or the sentinel
`"booted-disk"` when the table is unreadable (`table = none`) or has no
root line. The second component is the returned Go `error`, which is `nil`
(`none`) on every path. -/
def BootDisk (table : Option Str) : Str × Option Str :=
  match table with
  | none => (str "booted-disk", none)
  | some data =>
    match parseRootDevice data with
    | some dev => (dev, none)
    | none => (str "booted-disk", none)

/-- `parseMountedPartitionsForDisk` (Go): mount-table lines whose device
normalises to the given disk. -/
def parseMountedPartitionsForDisk (mounts disk : Str) : List MountedPartition :=
  (goLines mounts).filterMap (fun line =>
    match goFields line with
    | dev :: mp :: _ =>
      if baseDiskFromDevice dev = disk then some { Device := dev, Mountpoint := mp }
      else none
    | _ => none)

/-! ## Planner (plan.go / part_008) -/

/-- The resolved options record consumed by the planner (Go `PlanOptions`).
Field defaults are the Go zero values. -/
structure PlanOptions where
  Destination : Str := []
  Initialize : Bool := false
  ForceTwoPartitions : Bool := false
  ExpandLastPartition : Bool := false
  DeleteDest : Bool := false
  ForceSync : Bool := false
  P1SizeBytes : Int := 0
  SetupArgs : List Str := []
  EditFstabName : Str := []
  LeaveSDUSB : Bool := false
  AllSync : Bool := false
  ConvertToPartuuid : Bool := false
  LabelPartitions : Str := []
  MountDirs : List Str := []
  Quiet : Bool := false
  Unattended : Bool := false
  UnattendedInit : Bool := false
  Verbose : Bool := false
  PartitionStrategy : Str := []
  ExcludePatterns : List Str := []
  ExcludeFromFiles : List Str := []
  Hostname : Str := []
deriving Repr

/-- One planned partition (Go `PartitionPlan`). -/
structure PartitionPlan where
  Index : Int := 0
  Device : Str := []
  Mountpoint : Str := []
  Action : Str := []
deriving DecidableEq, Repr

/-- The plan (Go `PlanResult`). -/
structure PlanResult where
  SourceDisk : Str := []
  DestinationDisk : Str := []
  Partitions : List PartitionPlan := []
deriving DecidableEq, Repr

/-- The `System` capability consumed by `PlanWithSystem`: probe results as
data. `allParts` models the extra partitions contributed in `AllSync` mode
(via the probe's `AllParts` method or the `allPartitionsIncludingUnmounted`
fallback). -/
structure SystemM where
  bootDisk : Except Str Str
  mountedPartitions : Str → Except Str (List MountedPartition)
  allParts : Str → List MountedPartition

/-- One iteration of the planner's index derivation: 1-based position,
overridden by `partitionIndexFromDevice` when the device name yields a
positive index. -/
def derivedIndex (pos : Nat) (p : MountedPartition) : Int :=
  let base : Int := Int.ofNat pos + 1
  if p.Device ≠ [] then
    let n := partitionIndexFromDevice p.Device
    if n > 0 then n else base
  else base

/-- The planner's per-partition loop: each probed partition becomes a
`sync` plan entry with its derived index. -/
def buildPlanParts (parts : List MountedPartition) : List PartitionPlan :=
  parts.enum.map (fun ip =>
    { Index := derivedIndex ip.1 ip.2
      Device := ip.2.Device
      Mountpoint := ip.2.Mountpoint
      Action := str "sync" })

/-- The two-entry stub used when no partitions were detected. -/
def stubPlanParts : List PartitionPlan :=
  [{ Index := 1, Action := str "sync" }, { Index := 2, Action := str "sync" }]

/-- The planner's `MountDirs` filter: keep root and listed mountpoints,
but fall back to the unfiltered list when nothing matches. -/
def filterMountDirs (opts : PlanOptions) (planParts : List PartitionPlan) :
    List PartitionPlan :=
  if opts.MountDirs ≠ [] then
    let selected := planParts.filter (fun pp =>
      pp.Mountpoint = str "/" ||
        opts.MountDirs.any (fun m => goTrimSpace m = pp.Mountpoint))
    if selected ≠ [] then selected else planParts
  else planParts

/-- The planner's action rewriting under `Initialize` (and the
`ForceTwoPartitions` restriction to indices 1-2). -/
def applyInitActions (opts : PlanOptions) (planParts : List PartitionPlan) :
    List PartitionPlan :=
  if opts.Initialize then
    let mode := if opts.PartitionStrategy = [] then str "clone-table" else opts.PartitionStrategy
    let action :=
      if mode ≠ [] then str "initialize+sync" ++ '[' :: (mode ++ [']'])
      else str "initialize+sync"
    let ps := planParts.map (fun pp => { pp with Action := action })
    if opts.ForceTwoPartitions then
      ps.map (fun pp => if pp.Index > 2 then { pp with Action := str "sync" } else pp)
    else ps
  else planParts

/-- The planner's partition-list pipeline: derived plans from the probed
partitions (with the `AllSync` extras), the empty-probe stub, the
`MountDirs` filter, the `Initialize` action rewrite. -/
def planPartsOf (sys : SystemM) (opts : PlanOptions) (srcDisk : Str)
    (parts0 : List MountedPartition) : List PartitionPlan :=
  let parts := if opts.AllSync then parts0 ++ sys.allParts srcDisk else parts0
  let base := buildPlanParts parts
  applyInitActions opts (filterMountDirs opts (if base = [] then stubPlanParts else base))

/-- `PlanWithSystem` (Go, part_008): probe the boot disk, derive the plan
partitions, apply the MountDirs filter and the Initialize action rewrite. -/
def PlanWithSystem (sys : SystemM) (opts : PlanOptions) : Except Str PlanResult :=
  if opts.Destination = [] then .error (str "destination disk cannot be empty")
  else
    match sys.bootDisk with
    | .error e => .error (str "failed to detect boot disk: " ++ e)
    | .ok srcDev =>
      match sys.mountedPartitions (baseDiskFromDevice srcDev) with
      | .error e => .error (str "failed to detect mounted partitions: " ++ e)
      | .ok parts0 =>
        .ok { SourceDisk := baseDiskFromDevice srcDev
              DestinationDisk := opts.Destination
              Partitions := planPartsOf sys opts (baseDiskFromDevice srcDev) parts0 }

/-! ## Step builder (execute.go) -/

/-- One execution step (Go `ExecutionStep`). `SizeBytes` carries the
partition-1 target size for `prepare-disk`/`resize-p1`. -/
structure ExecutionStep where
  Operation : Str := []
  SourceDevice : Str := []
  DestinationDisk : Str := []
  PartitionIndex : Int := 0
  Mountpoint : Str := []
  SizeBytes : Int := 0
  Description : Str := []
deriving DecidableEq, Repr

/-- The `prepare-disk` step emitted when `Initialize` is set. -/
def prepareDiskStep (plan : PlanResult) (opts : PlanOptions) : ExecutionStep :=
  let strategy := if opts.PartitionStrategy = [] then str "clone-table" else opts.PartitionStrategy
  { Operation := str "prepare-disk"
    SourceDevice := plan.SourceDisk
    DestinationDisk := opts.Destination
    PartitionIndex := 0
    Mountpoint := []
    Description := str "prepare destination " ++ opts.Destination ++
      str " (strategy=" ++ strategy ++ str ")" }

/-- The per-partition description string of the step builder. -/
def partStepDesc (plan : PlanResult) (opts : PlanOptions) (part : PartitionPlan) : Str :=
  let src := if part.Device = [] then plan.SourceDisk else part.Device
  let d := part.Action ++ str " from " ++ src ++ str " to " ++ opts.Destination ++
    str " (partition " ++ intChars part.Index ++ str ")"
  if part.Mountpoint ≠ [] then d ++ str " mounted on " ++ part.Mountpoint else d

/-- Whether a partition plan's action requires initialisation
(`Action` neither empty nor `"sync"`). -/
def nonSyncAction (part : PartitionPlan) : Bool :=
  part.Action ≠ [] && part.Action ≠ str "sync"

/-- The optional `initialize-partition` step followed by the
`sync-filesystem` step for one partition of the plan. -/
def stepsForPartition (plan : PlanResult) (opts : PlanOptions) (part : PartitionPlan) :
    List ExecutionStep :=
  let src := if part.Device = [] then plan.SourceDisk else part.Device
  let desc := partStepDesc plan opts part
  (if nonSyncAction part then
    [{ Operation := str "initialize-partition"
       SourceDevice := src
       DestinationDisk := opts.Destination
       PartitionIndex := part.Index
       Mountpoint := part.Mountpoint
       Description := str "initialize " ++ desc }]
   else []) ++
  [{ Operation := str "sync-filesystem"
     SourceDevice := src
     DestinationDisk := opts.Destination
     PartitionIndex := part.Index
     Mountpoint := part.Mountpoint
     Description := str "sync " ++ desc }]

/-- The `grow-partition` step for a given index. -/
def growStepAt (opts : PlanOptions) (idx : Int) : ExecutionStep :=
  { Operation := str "grow-partition"
    SourceDevice := []
    DestinationDisk := opts.Destination
    PartitionIndex := idx
    Mountpoint := []
    Description := str "grow destination partition " ++ intChars idx ++ str " on " ++
      opts.Destination ++ str " to fill remaining space" }

/-- The step builder's scan for the largest index among partitions whose
action is not plain `sync`. -/
def lastNonSyncIdx (plan : PlanResult) : Int :=
  plan.Partitions.foldl
    (fun acc part => if part.Index > acc && nonSyncAction part then part.Index else acc) 0

/-- The optional `grow-partition` tail of the step list. -/
def growTail (plan : PlanResult) (opts : PlanOptions) : List ExecutionStep :=
  if opts.Initialize && opts.ExpandLastPartition then
    let lastIdx := lastNonSyncIdx plan
    if lastIdx > 0 then [growStepAt opts lastIdx] else []
  else []

/-- `BuildExecutionSteps` (Go, execute.go): optional `prepare-disk`, the
per-partition loop, optional `grow-partition` tail. -/
def BuildExecutionSteps (plan : PlanResult) (opts : PlanOptions) : List ExecutionStep :=
  (if opts.Initialize then [prepareDiskStep plan opts] else []) ++
    plan.Partitions.foldl (fun acc part => acc ++ stepsForPartition plan opts part) [] ++
    growTail plan opts

/-- `Apply` (Go, execute.go) with an explicit trace: the steps passed to the
runner, in order, stopping at (and including) the first failing step, and the
wrapped error of that step when there is one. -/
def applyTrace (runner : ExecutionStep → Option Str) :
    List ExecutionStep → List ExecutionStep × Option Str
  | [] => ([], none)
  | s :: rest =>
    match runner s with
    | some e =>
      ([s], some (str "apply failed on operation \"" ++ s.Operation ++ str "\" (dest=" ++
        s.DestinationDisk ++ str ", part=" ++ intChars s.PartitionIndex ++ str "): " ++ e))
    | none =>
      let r := applyTrace runner rest
      (s :: r.1, r.2)

/-! ## Safety checker (safety.go) -/

/-- The environment consulted by the safety checker: results of `os.Stat`
and of the probing subprocesses (`lsblk`, `findmnt`). `none` models a
command that returned a non-`nil` error. -/
structure SafetyEnv where
  statOk : Str → Bool
  lsblkSizeOut : Str → Option Str
  findmntOut : Str → Option Str
  lsblkNameMountOut : Option Str

/-- `diskSizeBytes` (Go): parse the trimmed `lsblk -b -dn -o SIZE` output;
`none` models every error path. -/
def diskSizeBytesM (env : SafetyEnv) (dev : Str) : Option Nat :=
  let dev := ensureDevPrefix dev
  match env.lsblkSizeOut dev with
  | none => none
  | some out =>
    let text := goTrimSpace out
    if text = [] then none else goParseUint text

/-- `deviceMountpoint` (Go): trimmed `findmnt -n -o TARGET` output; a failing
`findmnt` (device not mounted) yields the empty string and no error, so the
Go function never returns a non-`nil` error. -/
def deviceMountpointM (env : SafetyEnv) (dev : Str) : Str :=
  let dev := ensureDevPrefix dev
  match env.findmntOut dev with
  | none => []
  | some out => goTrimSpace out

/-- `mountedPartitionsOfDisk` (Go): scan `lsblk -nr -o NAME,MOUNTPOINT` lines
for mounted children of the disk; `none` models an `lsblk` failure. -/
def mountedPartitionsOfDiskM (env : SafetyEnv) (dev : Str) : Option (List Str) :=
  let base := goTrimPrefix (ensureDevPrefix dev) (str "/dev/")
  match env.lsblkNameMountOut with
  | none => none
  | some out =>
    let ls := splitOnChar '\n' (goTrimSpace out)
    some (ls.filterMap (fun line =>
      match goFields line with
      | [name, mnt] =>
        if mnt = [] || mnt = str "-" then none
        else if goHasPrefix name base && name ≠ base then
          some (str "/dev/" ++ name ++ str " -> " ++ mnt)
        else none
      | _ => none))

/-- `ValidateCloneSafety` (Go): the pre-apply safety gate. Returns the error
message (`some`) or `none` when the plan passes. The checks run in source
order: same base disk, partition-like destination, destination existence,
size comparison (skipped when either size probe fails), destination mounted,
mounted child partitions. -/
def ValidateCloneSafety (plan : PlanResult) (opts : PlanOptions) (env : SafetyEnv) :
    Option Str :=
  let srcDisk := plan.SourceDisk
  let dstDisk := ensureDevPrefix opts.Destination
  if sameDisk srcDisk dstDisk then
    some (str "refusing to clone to " ++ dstDisk ++
      str ": it is the boot/source disk. Pick another disk to avoid wiping your running system")
  else if looksLikePartition dstDisk then
    some (str "destination " ++ dstDisk ++
      str " looks like a partition; use a whole disk name (e.g. sda, nvme0n1) so Klon can recreate the partition table safely")
  else if ¬ env.statOk dstDisk then
    some (str "destination disk " ++ dstDisk ++
      str " does not exist or is not accessible. Check the cabling/USB adapter and permissions")
  else
    let srcSize := (diskSizeBytesM env srcDisk).getD 0
    let dstSize := (diskSizeBytesM env dstDisk).getD 0
    if srcSize > 0 && dstSize > 0 && dstSize < srcSize && !opts.ForceSync then
      some (str "destination disk " ++ dstDisk ++ str " (" ++ natChars dstSize ++
        str " bytes) is smaller than source disk " ++ srcDisk ++ str " (" ++ natChars srcSize ++
        str " bytes). Use a larger disk or shrink the source first, or rerun with -F to force (may fail)")
    else
      let mountPoint := deviceMountpointM env dstDisk
      if mountPoint ≠ [] then
        some (str "destination disk " ++ dstDisk ++ str " is mounted at " ++ mountPoint ++
          str "; please unmount it before cloning")
      else
        match mountedPartitionsOfDiskM env dstDisk with
        | some parts =>
          if parts ≠ [] then
            some (str "destination disk " ++ dstDisk ++ str " has mounted partitions: " ++
              joinCommaSpace parts ++ str "; please unmount them before cloning")
          else none
        | none => none

/-! ## Command builders (partition_command, sync_command) -/

/-- `BuildPartitionCommand` (Go): the shell command preparing the destination
partition table for a `prepare-disk` step, per strategy. -/
def BuildPartitionCommand (step : ExecutionStep) (strategy : Str) : Except Str Str :=
  if step.Operation ≠ str "prepare-disk" then
    .error (str "BuildPartitionCommand: unsupported operation " ++ step.Operation)
  else if step.DestinationDisk = [] then
    .error (str "BuildPartitionCommand: destination disk is required")
  else
    let src := ensureDevPrefix step.SourceDevice
    let target := ensureDevPrefix step.DestinationDisk
    if strategy = [] || strategy = str "clone-table" then
      .ok (str "sfdisk -d " ++ src ++ str " | sfdisk " ++ target)
    else if strategy = str "new-layout" then
      let sizeBytes := if step.SizeBytes ≤ 0 then (256 * 1024 * 1024 : Int) else step.SizeBytes
      let sizeMB := (sizeBytes + 1024 * 1024 - 1) / (1024 * 1024)
      let script := ',' :: (intChars sizeMB ++ str "M,c" ++ '\n' :: str ",,L" ++ ['\n'])
      .ok (str "sfdisk " ++ target ++ str " <<'EOF'" ++ '\n' :: str "label: dos" ++
        '\n' :: script ++ str "EOF")
    else if strategy = str "new-layout-gpt" then
      let sizeBytes := if step.SizeBytes ≤ 0 then (256 * 1024 * 1024 : Int) else step.SizeBytes
      let sizeMB := (sizeBytes + 1024 * 1024 - 1) / (1024 * 1024)
      .ok (str "parted -s " ++ target ++ str " mklabel gpt mkpart primary fat32 1MiB " ++
        intChars sizeMB ++ str "MiB set 1 boot on mkpart primary ext4 " ++
        intChars (sizeMB + 1) ++ str "MiB 100%")
    else .error (str "BuildPartitionCommand: unknown strategy " ++ strategy)

/-- The root-sync exclude patterns preceding the destination-root exclude. -/
def rootExcludesHead : List Str :=
  [str "/proc/**", str "/sys/**", str "/dev/**", str "/run/**", str "/tmp/**",
   str "/mnt/**", str "/media/**"]

/-- The root-sync exclude patterns following the destination-root exclude. -/
def rootExcludesTail : List Str :=
  [str "/var/cache/**", str "/var/tmp/**", str "/var/log/journal/**",
   str "/home/*/.cache/**"]

/-- Modelled from the spec: the five-argument `BuildSyncCommand` called by the
runner (with the `deleteFiles` flag) is not among the source files; only its
four-argument predecessor (part_013), its callers (runner_command.go) and its
tests (sync_command_test.go) are. The argument vector follows the predecessor
and spec section 4.5.1, with `--delete` appended right after the base flags
exactly when `deleteFiles` is set, as the tests show
(`rsync -aAXH --numeric-ids --whole-file --delete ...`). Returns the argument
vector, the source path argument and the destination path. -/
def buildSyncPieces (step : ExecutionStep) (destRoot : Str)
    (extraExcludes extraExcludeFrom : List Str) (deleteFiles : Bool) :
    Except Str (List Str × Str × Str) :=
  if step.Operation ≠ str "sync-filesystem" then
    .error (str "BuildSyncCommand: unsupported operation " ++ step.Operation)
  else if step.Mountpoint = [] then
    .error (str "BuildSyncCommand: mountpoint is required")
  else if destRoot = [] then
    .error (str "BuildSyncCommand: destRoot is required")
  else
    let srcPath := step.Mountpoint
    let dstPath :=
      if step.Mountpoint ≠ str "/" then joinPath destRoot (goTrimPrefix step.Mountpoint (str "/"))
      else destRoot
    let args := [str "rsync", str "-aAXH", str "--numeric-ids", str "--whole-file"] ++
      (if deleteFiles then [str "--delete"] else []) ++
      extraExcludes.flatMap (fun p => [str "--exclude", p]) ++
      extraExcludeFrom.flatMap (fun f => [str "--exclude-from", f]) ++
      (if step.Mountpoint = str "/" then
        str "--one-file-system" ::
          ((rootExcludesHead ++
            (if destRoot ≠ [] then [destRoot ++ str "/**"] else []) ++
            rootExcludesTail).flatMap (fun e => [str "--exclude", e]))
       else [])
    let srcArg := if step.Mountpoint = str "/" then srcPath else srcPath ++ ['/']
    .ok (args, srcArg, dstPath)

/-- Modelled from the spec: the rendered rsync command line of the missing
five-argument `BuildSyncCommand` (see `buildSyncPieces`), formatted as
`<args joined by spaces> <src> <dst>/`. -/
def BuildSyncCommand (step : ExecutionStep) (destRoot : Str)
    (extraExcludes extraExcludeFrom : List Str) (deleteFiles : Bool) : Except Str Str :=
  (buildSyncPieces step destRoot extraExcludes extraExcludeFrom deleteFiles).map
    (fun p => joinSpace p.1 ++ ' ' :: p.2.1 ++ ' ' :: p.2.2 ++ ['/'])

/-! ## Command runner (runner_command.go, runner_noop.go) -/

/-- The result of one subprocess, as seen through `CombinedOutput`:
`ok` is a `nil` error (the process ran and exited 0), `exitCode c` is an
`*exec.ExitError` with that status and `failedToStart` any other error. -/
inductive ProcResult where
  | ok
  | exitCode (c : Nat)
  | failedToStart
deriving DecidableEq, Repr

/-- Whether a `CombinedOutput` result is a non-`nil` error. -/
def procFailed : ProcResult → Bool
  | .ok => false
  | .exitCode c => c ≠ 0
  | .failedToStart => true

/-- The execution environment of the command runner: shell commands
(`sh -c`), direct argv commands (the parallel rsync jobs), `os.MkdirAll`,
`os.MkdirTemp` and the `lsblk -no FSTYPE` probe. -/
structure ExecEnv where
  runShell : Str → ProcResult
  runArgv : List Str → ProcResult
  mkdirOk : Str → Bool
  tempDir : Option Str
  lsblkFsOut : Str → Option Str

/-- `CommandRunner` (Go): the runner bound to a destination disk. -/
structure CommandRunner where
  DestRoot : Str := []
  PartitionStrategy : Str := []
  ExcludePatterns : List Str := []
  ExcludeFromFiles : List Str := []
  DestDisk : Str := []
  DeleteDest : Bool := false
  DeleteRoot : Bool := false
deriving Repr

/-- `NewCommandRunner` (Go): normalises the bound destination disk. -/
def NewCommandRunner (destRoot strategy : Str) (excludePatterns excludeFromFiles : List Str)
    (destDisk : Str) (deleteDest deleteRoot : Bool) : CommandRunner :=
  { DestRoot := destRoot
    PartitionStrategy := strategy
    ExcludePatterns := excludePatterns
    ExcludeFromFiles := excludeFromFiles
    DestDisk := ensureDevPrefix destDisk
    DeleteDest := deleteDest
    DeleteRoot := deleteRoot }

/-- `runShellCommand` (Go): run via `sh -c`, error on non-`nil` result. -/
def runShellCommandM (env : ExecEnv) (cmdStr : Str) : Option Str :=
  if procFailed (env.runShell cmdStr) then
    some (str "command failed while running " ++ cmdStr)
  else none

/-- `detectFilesystem` (Go): trimmed `lsblk -no FSTYPE` output. -/
def detectFilesystemM (env : ExecEnv) (dev : Str) : Option Str :=
  match env.lsblkFsOut (ensureDevPrefix dev) with
  | none => none
  | some out => some (goTrimSpace out)

/-- `runResizeP1` (Go): `parted -s <disk> resizepart 1 <size>B`. -/
def runResizeP1M (env : ExecEnv) (step : ExecutionStep) : Option Str :=
  if step.SizeBytes ≤ 0 then
    some (str "resize-p1 on " ++ step.DestinationDisk ++ str ": missing target size")
  else
    let disk := ensureDevPrefix step.DestinationDisk
    let cmdStr := str "parted -s " ++ disk ++ str " resizepart 1 " ++
      intChars step.SizeBytes ++ str "B"
    if (runShellCommandM env cmdStr).isSome then
      some (str "resize-p1 on " ++ step.DestinationDisk ++ str ": parted failed")
    else none

/-- `runPrepareDisk` (Go): build and run the partition command, then
`resize-p1` when a positive size was requested. -/
def runPrepareDiskM (r : CommandRunner) (env : ExecEnv) (step : ExecutionStep) : Option Str :=
  match BuildPartitionCommand step r.PartitionStrategy with
  | .error e => some (str "prepare-disk on " ++ step.DestinationDisk ++ str ": " ++ e)
  | .ok cmdStr =>
    match runShellCommandM env cmdStr with
    | some e => some e
    | none => if step.SizeBytes > 0 then runResizeP1M env step else none

/-- `runGrowPartition` (Go): `parted resizepart <idx> 100%`, best-effort
`e2fsck` (result discarded), then `resize2fs`. -/
def runGrowPartitionM (env : ExecEnv) (step : ExecutionStep) : Option Str :=
  if step.DestinationDisk = [] || step.PartitionIndex ≤ 0 then
    some (str "grow-partition on " ++ step.DestinationDisk ++
      str ": missing destination or partition index")
  else
    let disk := ensureDevPrefix step.DestinationDisk
    let part := partitionDevice step.DestinationDisk step.PartitionIndex
    let cmdStr := str "parted -s " ++ disk ++ str " resizepart " ++
      intChars step.PartitionIndex ++ str " 100%"
    if (runShellCommandM env cmdStr).isSome then
      some (str "grow-partition on " ++ step.DestinationDisk ++ str ": parted failed")
    else
      -- e2fsck -f -p <part> || true : executed, result discarded
      if (runShellCommandM env (str "resize2fs " ++ part)).isSome then
        some (str "grow-partition on " ++ step.DestinationDisk ++
          str ": resize2fs failed for " ++ part)
      else none

/-- `runInitializePartition` (Go): detect the source filesystem and run the
matching `mkfs`/`mkswap` on the destination partition device. -/
def runInitializePartitionM (env : ExecEnv) (step : ExecutionStep) : Option Str :=
  if step.SourceDevice = [] || step.DestinationDisk = [] || step.PartitionIndex ≤ 0 then
    some (str "initialize-partition on " ++ step.DestinationDisk ++
      str ": missing source, destination or partition index")
  else
    match detectFilesystemM env step.SourceDevice with
    | none =>
      some (str "initialize-partition on " ++ step.DestinationDisk ++
        str ": cannot detect filesystem for " ++ step.SourceDevice)
    | some srcFs =>
      if srcFs = [] then
        some (str "initialize-partition on " ++ step.DestinationDisk ++
          str ": empty filesystem type for " ++ step.SourceDevice)
      else
        let dstPart := partitionDevice step.DestinationDisk step.PartitionIndex
        if goHasPrefix srcFs (str "ext") then
          runShellCommandM env (str "mkfs.ext4 -F " ++ dstPart)
        else if srcFs = str "vfat" || goHasPrefix srcFs (str "fat") then
          runShellCommandM env (str "mkfs.vfat " ++ dstPart)
        else if srcFs = str "swap" then
          runShellCommandM env (str "mkswap " ++ dstPart)
        else
          some (str "initialize-partition: unsupported filesystem type " ++ srcFs)

/-- The four known large subtrees split off by the parallel root sync. -/
def subtreeNames : List Str := [str "usr", str "var", str "home", str "opt"]

/-- `runParallelRootSync` (Go), job construction: rebuild the base root rsync
command (with the runner's `DeleteDest` flag), drop the leading `rsync` and
the two trailing path arguments, append one `--exclude <subtree>/` pair per
subtree to the shared argument vector, then emit one argv per subtree
(`args ++ [<subtree>/, <destRoot>/<subtree>/]`) and the final rest job
(`args ++ [/, <destRoot>/]`). -/
def parallelRootSyncJobs (r : CommandRunner) (destRoot : Str) :
    Except Str (List (List Str)) :=
  let subtrees := subtreeNames.map (fun n =>
    ('/' :: n ++ ['/'], joinPath destRoot n ++ ['/']))
  let baseStep : ExecutionStep := { Operation := str "sync-filesystem", Mountpoint := str "/" }
  match BuildSyncCommand baseStep r.DestRoot r.ExcludePatterns r.ExcludeFromFiles r.DeleteDest with
  | .error e => .error (str "parallel root sync: cannot build base rsync command: " ++ e)
  | .ok baseCmd =>
    let parts := goFields baseCmd
    if parts.length < 4 then
      .error (str "parallel root sync: unexpected rsync command format: " ++ baseCmd)
    else
      let args := ((parts.drop 1).dropLast).dropLast
      let args := args ++ subtrees.flatMap (fun st => [str "--exclude", st.1])
      let subJobs := subtrees.map (fun st => args ++ [st.1, st.2])
      let restJob := args ++ [str "/", destRoot ++ ['/']]
      .ok (subJobs ++ [restJob])

/-- The per-job error handling of the parallel root sync: a `nil` error or an
exit status of 23 is success; any other failure is an error. -/
def rootSyncJobOutcome : ProcResult → Option Str
  | .ok => none
  | .exitCode c => if c = 0 then none else if c = 23 then none else some (str "command failed")
  | .failedToStart => some (str "command failed")

/-- `runParallelRootSync` (Go), overall result: the jobs run concurrently
(bounded at two) and the first error observed is returned; whether an error
is returned does not depend on arrival order, so the model returns the first
failing job in job order. -/
def runParallelRootSyncM (r : CommandRunner) (destRoot : Str) (env : ExecEnv) : Option Str :=
  match parallelRootSyncJobs r destRoot with
  | .error e => some e
  | .ok jobs => (jobs.filterMap (fun j => rootSyncJobOutcome (env.runArgv j))).head?

/-- `runSyncFilesystem` (Go), result level: destination directory creation and
mount, the optional read-only scratch mount of an unmounted source, then
either the parallel root sync (mountpoint `/`) or a single built rsync
command. The `df -h` reports and the deferred unmounts do not affect the
result (unmount failures are logged warnings). -/
def runSyncFilesystemM (r : CommandRunner) (env : ExecEnv) (step : ExecutionStep) : Option Str :=
  if r.DestRoot = [] then
    some (str "sync-filesystem on " ++ step.DestinationDisk ++ str ": dest root is empty")
  else if step.Mountpoint = [] && step.SourceDevice = [] then
    some (str "sync-filesystem on " ++ step.DestinationDisk ++
      str ": source mountpoint empty and no source device to mount")
  else
    let destPath :=
      if step.Mountpoint ≠ str "/" then joinPath r.DestRoot (goTrimPrefix step.Mountpoint (str "/"))
      else r.DestRoot
    if ¬ env.mkdirOk destPath then
      some (str "sync-filesystem on " ++ step.DestinationDisk ++
        str ": cannot create destination dir " ++ destPath)
    else
      let dstPart := partitionDevice step.DestinationDisk step.PartitionIndex
      if procFailed (env.runShell (str "mount " ++ dstPart ++ ' ' :: destPath)) then
        some (str "sync-filesystem on " ++ step.DestinationDisk ++ str ": failed to mount " ++
          dstPart ++ str " on " ++ destPath)
      else
        -- df -h <destPath> : executed, result discarded
        let tempMount : Except Str (Str × Str) :=
          if step.Mountpoint = [] && step.SourceDevice ≠ [] then
            match env.tempDir with
            | none =>
              .error (str "sync-filesystem on " ++ step.DestinationDisk ++
                str ": cannot create temp dir to mount source")
            | some tmpDir =>
              if procFailed (env.runShell (str "mount -o ro " ++
                  ensureDevPrefix step.SourceDevice ++ ' ' :: tmpDir)) then
                .error (str "sync-filesystem on " ++ step.DestinationDisk ++
                  str ": failed to mount source " ++ step.SourceDevice ++ str " on " ++ tmpDir)
              else .ok (tmpDir, tmpDir)
          else .ok (step.Mountpoint, [])
        match tempMount with
        | .error e => some e
        | .ok srcTemp =>
          let srcMount := srcTemp.1
          let tempSrc := srcTemp.2
          if step.Mountpoint = str "/" then
            runParallelRootSyncM r destPath env
          else
            let effectiveStep :=
              if tempSrc ≠ [] then { step with Mountpoint := srcMount } else step
            let deleteFlag := if step.Mountpoint = str "/" then r.DeleteRoot else r.DeleteDest
            match BuildSyncCommand effectiveStep r.DestRoot r.ExcludePatterns
                r.ExcludeFromFiles deleteFlag with
            | .error e =>
              some (str "sync-filesystem on " ++ step.DestinationDisk ++
                str ": cannot build rsync command: " ++ e)
            | .ok cmdStr =>
              if procFailed (env.runShell cmdStr) then some (str "command failed")
              else none

/-- `CommandRunner.Run` (Go): the bound-destination guard followed by the
operation dispatch; unknown operations are logged and succeed. -/
def commandRunnerRun (r : CommandRunner) (env : ExecEnv) (step : ExecutionStep) : Option Str :=
  if step.DestinationDisk ≠ [] &&
      (r.DestDisk ≠ [] && ensureDevPrefix step.DestinationDisk ≠ r.DestDisk) then
    some (str "refusing to run " ++ step.Operation ++ str " step on unexpected destination " ++
      ensureDevPrefix step.DestinationDisk ++ str " (expected " ++ r.DestDisk ++ str ")")
  else if step.Operation = str "prepare-disk" then runPrepareDiskM r env step
  else if step.Operation = str "grow-partition" then runGrowPartitionM env step
  else if step.Operation = str "initialize-partition" then runInitializePartitionM env step
  else if step.Operation = str "sync-filesystem" then runSyncFilesystemM r env step
  else if step.Operation = str "resize-p1" then runResizeP1M env step
  else none

/-- `NoopRunner.Run` (Go): log the step and succeed; no destination check. -/
def noopRunnerRun (step : ExecutionStep) : Option Str :=
  let _ := step
  none

/-! ## Orchestrating run (cli run, part_018) -/

/-- The outcome of the orchestrating `run` from the safety check onward:
the steps the runner was invoked on, and the returned error when any. -/
structure RunOutcome where
  invoked : List ExecutionStep
  result : Option Str
deriving Repr

/-- The confirmation decision of `run` (quiet, auto-approve and the
unattended flags suppress the prompt). `autoApprove` is the CLI-level
`--auto-approve` option that accompanies the plan options. -/
def askConfirmFlag (opts : PlanOptions) (autoApprove : Bool) : Bool :=
  if opts.Quiet then false
  else if autoApprove then false
  else if opts.UnattendedInit && opts.Initialize then false
  else if opts.Unattended && !opts.Initialize then false
  else true

/-- The orchestrating `run` (part_018) from the safety check through `Apply`:
on a safety error `run` returns before constructing the runner, so the runner
is invoked on no step; a declined confirmation also returns early; otherwise
`Apply` drives the runner over the built steps. The post-apply adjust and
verify phases (which do not invoke the `Runner`) are summarised by
`afterApply`. The state-log appends and UI printing do not affect the
outcome. -/
def runAfterPlan (plan : PlanResult) (opts : PlanOptions) (env : SafetyEnv)
    (autoApprove confirmAnswer : Bool) (runner : ExecutionStep → Option Str)
    (afterApply : Option Str) : RunOutcome :=
  match ValidateCloneSafety plan opts env with
  | some e => { invoked := [], result := some (str "safety check failed: " ++ e) }
  | none =>
    if askConfirmFlag opts autoApprove && !confirmAnswer then
      { invoked := [], result := some (str "apply cancelled by user") }
    else
      let steps := BuildExecutionSteps plan opts
      let tr := applyTrace runner steps
      match tr.2 with
      | some e => { invoked := tr.1, result := some e }
      | none => { invoked := tr.1, result := afterApply }

/-! ## Supporting lemmas -/

theorem goHasPrefix_append (pre rest : Str) : goHasPrefix (pre ++ rest) pre = true := by
  induction pre with
  | nil => simp [goHasPrefix, List.isPrefixOf]
  | cons c t ih => simpa [goHasPrefix, List.isPrefixOf] using ih

theorem goTrimPrefix_append (pre rest : Str) : goTrimPrefix (pre ++ rest) pre = rest := by
  simp [goTrimPrefix, goHasPrefix_append, List.drop_left]

theorem ensureDevPrefix_idem (x : Str) :
    ensureDevPrefix (ensureDevPrefix x) = ensureDevPrefix x := by
  unfold ensureDevPrefix
  by_cases h : x = []
  · simp [h]
  · by_cases hp : goHasPrefix x (str "/dev/")
    · simp [h, hp]
    · have h1 : ¬ (str "/dev/" ++ x = []) := by simp [str]
      have h2 : goHasPrefix (str "/dev/" ++ x) (str "/dev/") = true := goHasPrefix_append _ _
      simp [h, hp, h1, h2]

/-! ## Claim theorems -/

/-- C1: for every plan and options whose source disk and destination
normalise to the same base disk, `ValidateCloneSafety` returns an error,
and after such a failure the orchestrating `run` invokes the runner on no
execution step. -/
theorem safety_rejects_same_base_disk
    (plan : PlanResult) (opts : PlanOptions) (env : SafetyEnv)
    (autoApprove confirmAnswer : Bool) (runner : ExecutionStep → Option Str)
    (afterApply : Option Str)
    (h : baseDiskFromDevice (ensureDevPrefix plan.SourceDisk) =
      baseDiskFromDevice (ensureDevPrefix opts.Destination)) :
    (ValidateCloneSafety plan opts env).isSome = true ∧
      (runAfterPlan plan opts env autoApprove confirmAnswer runner afterApply).invoked = [] := by
  have hs : sameDisk plan.SourceDisk (ensureDevPrefix opts.Destination) = true := by
    simp [sameDisk, ensureDevPrefix_idem, h]
  have hv : (ValidateCloneSafety plan opts env).isSome = true := by
    simp [ValidateCloneSafety, hs]
  refine ⟨hv, ?_⟩
  obtain ⟨e, he⟩ := Option.isSome_iff_exists.mp hv
  simp [runAfterPlan, he]

def c1Env : SafetyEnv :=
  { statOk := fun _ => true
    lsblkSizeOut := fun _ => none
    findmntOut := fun _ => none
    lsblkNameMountOut := none }

/-- Witness for C1 at boot device `/dev/sda2` and destination `sda`. -/
theorem safety_rejects_same_base_disk_witness :
    (baseDiskFromDevice (ensureDevPrefix (PlanResult.SourceDisk { SourceDisk := str "/dev/sda2" })) =
      baseDiskFromDevice (ensureDevPrefix (PlanOptions.Destination { Destination := str "sda" }))) ∧
    (ValidateCloneSafety { SourceDisk := str "/dev/sda2" } { Destination := str "sda" } c1Env).isSome = true ∧
    (runAfterPlan { SourceDisk := str "/dev/sda2" } { Destination := str "sda" } c1Env
      false true noopRunnerRun none).invoked = [] :=
  ⟨by decide,
    safety_rejects_same_base_disk { SourceDisk := str "/dev/sda2" } { Destination := str "sda" }
      c1Env false true noopRunnerRun none (by decide)⟩

def c2Env : SafetyEnv :=
  { statOk := fun d => d = str "/dev/sda"
    lsblkSizeOut := fun d => if d = str "/dev/sda" then some (str "64000000000") else none
    findmntOut := fun _ => none
    lsblkNameMountOut := some (str "sda -") }

/-- C2 counterexample: a plan whose `SourceDisk` is the sentinel
`"booted-disk"` is NOT rejected by the safety checks against a real
destination: `sda` exists, is no partition, is unmounted and has no mounted
children, yet `ValidateCloneSafety` returns no error (the sentinel never
shares a base disk with a real device and its failing size probe skips the
size comparison). -/
theorem sentinel_source_passes_safety_cex :
    PlanResult.SourceDisk { SourceDisk := str "booted-disk" } = str "booted-disk" ∧
    looksLikePartition (ensureDevPrefix (str "sda")) = false ∧
    SafetyEnv.statOk c2Env (ensureDevPrefix (str "sda")) = true ∧
    deviceMountpointM c2Env (ensureDevPrefix (str "sda")) = [] ∧
    mountedPartitionsOfDiskM c2Env (ensureDevPrefix (str "sda")) = some [] ∧
    ValidateCloneSafety { SourceDisk := str "booted-disk" } { Destination := str "sda" } c2Env
      = none := by
  decide

/-- C2 (amended): when the mount table is unreadable or has no root line,
`BootDisk` returns the sentinel `"booted-disk"` with a `nil` error; but a
plan carrying the sentinel source is NOT rejected: against any existing,
unmounted, whole-disk destination (whose base disk is not the literal
`/dev/booted-disk` and while the sentinel's size probe fails),
`ValidateCloneSafety` returns no error, leaving rejection to later stages. -/
theorem sentinel_boot_disk_and_safety_outcome
    (table : Option Str) (plan : PlanResult) (opts : PlanOptions) (env : SafetyEnv)
    (htable : table = none ∨ ∃ s, table = some s ∧ parseRootDevice s = none)
    (hsrc : plan.SourceDisk = str "booted-disk")
    (hbase : baseDiskFromDevice (ensureDevPrefix opts.Destination) ≠ str "/dev/booted-disk")
    (hpart : looksLikePartition (ensureDevPrefix opts.Destination) = false)
    (hstat : env.statOk (ensureDevPrefix opts.Destination) = true)
    (hsize : (diskSizeBytesM env (str "booted-disk")).getD 0 = 0)
    (hmp : deviceMountpointM env (ensureDevPrefix opts.Destination) = [])
    (hch : (mountedPartitionsOfDiskM env (ensureDevPrefix opts.Destination)).getD [] = []) :
    BootDisk table = (str "booted-disk", none) ∧
      ValidateCloneSafety plan opts env = none := by
  constructor
  · rcases htable with h | ⟨s, hs, hps⟩
    · simp [BootDisk, h]
    · simp [BootDisk, hs, hps]
  · have hsame : sameDisk plan.SourceDisk (ensureDevPrefix opts.Destination) = false := by
      simp only [sameDisk, hsrc, decide_eq_false_iff_not]
      intro hcontra
      rw [ensureDevPrefix_idem] at hcontra
      apply hbase
      rw [← hcontra]
      decide
    have hch' : mountedPartitionsOfDiskM env (ensureDevPrefix opts.Destination) = none ∨
        mountedPartitionsOfDiskM env (ensureDevPrefix opts.Destination) = some [] := by
      cases hcase : mountedPartitionsOfDiskM env (ensureDevPrefix opts.Destination) with
      | none => exact .inl rfl
      | some parts =>
        right
        rw [hcase] at hch
        simp at hch
        rw [hch]
    rw [hsrc] at hsame
    rcases hch' with hc | hc <;>
      simp [ValidateCloneSafety, hsrc, hsame, hpart, hstat, hsize, hmp, hc]

/-- Witness for the amended C2 at an unreadable mount table and destination
`sda` in the concrete environment `c2Env`. -/
theorem sentinel_boot_disk_and_safety_outcome_witness :
    (diskSizeBytesM c2Env (str "booted-disk")).getD 0 = 0 ∧
    deviceMountpointM c2Env (ensureDevPrefix (str "sda")) = [] ∧
    BootDisk none = (str "booted-disk", none) ∧
    ValidateCloneSafety { SourceDisk := str "booted-disk" } { Destination := str "sda" } c2Env
      = none :=
  ⟨by decide, by decide,
    sentinel_boot_disk_and_safety_outcome none { SourceDisk := str "booted-disk" }
      { Destination := str "sda" } c2Env (.inl rfl) rfl (by decide) (by decide) (by decide)
      (by decide) (by decide) (by decide)⟩

/-- C3 counterexample: the no-op runner performs no bound-destination check;
it returns no error on a step whose destination (after `/dev/` normalisation)
differs from a bound destination such as `/dev/sda`. -/
theorem noop_runner_accepts_mismatched_destination_cex :
    ensureDevPrefix (str "sdb") ≠ ensureDevPrefix (str "sda") ∧
    noopRunnerRun { Operation := str "sync-filesystem", DestinationDisk := str "sdb" } = none :=
  ⟨by decide, rfl⟩

/-- C3 (amended): the command runner bound to a non-empty destination disk
rejects every step with a non-empty `DestinationDisk` that normalises
differently from the bound destination, returning the refusal error without
consulting the execution environment (so before performing any operation);
the no-op runner performs no such check. -/
theorem command_runner_rejects_mismatched_destination
    (r : CommandRunner) (step : ExecutionStep) (env : ExecEnv)
    (h1 : r.DestDisk ≠ []) (h2 : step.DestinationDisk ≠ [])
    (h3 : ensureDevPrefix step.DestinationDisk ≠ r.DestDisk) :
    commandRunnerRun r env step =
      some (str "refusing to run " ++ step.Operation ++
        str " step on unexpected destination " ++ ensureDevPrefix step.DestinationDisk ++
        str " (expected " ++ r.DestDisk ++ str ")") := by
  simp [commandRunnerRun, h1, h2, h3]

def c3Env : ExecEnv :=
  { runShell := fun _ => .ok
    runArgv := fun _ => .ok
    mkdirOk := fun _ => true
    tempDir := none
    lsblkFsOut := fun _ => none }

/-- Witness for the amended C3: the runner bound to `sda` refuses a
`prepare-disk` step aimed at `sdb`. -/
theorem command_runner_rejects_mismatched_destination_witness :
    (NewCommandRunner (str "/mnt/clone") [] [] [] (str "sda") false false).DestDisk ≠ [] ∧
    commandRunnerRun (NewCommandRunner (str "/mnt/clone") [] [] [] (str "sda") false false) c3Env
        { Operation := str "prepare-disk", DestinationDisk := str "sdb" } =
      some (str "refusing to run " ++ str "prepare-disk" ++
        str " step on unexpected destination " ++ ensureDevPrefix (str "sdb") ++
        str " (expected " ++
        (NewCommandRunner (str "/mnt/clone") [] [] [] (str "sda") false false).DestDisk ++
        str ")") :=
  ⟨by decide,
    command_runner_rejects_mismatched_destination
      (NewCommandRunner (str "/mnt/clone") [] [] [] (str "sda") false false)
      { Operation := str "prepare-disk", DestinationDisk := str "sdb" } c3Env
      (by decide) (by decide) (by decide)⟩

def c4Runner : CommandRunner :=
  NewCommandRunner (str "/mnt/clone") [] [] [] (str "sda") false true

def c4RunnerSwapped : CommandRunner :=
  NewCommandRunner (str "/mnt/clone") [] [] [] (str "sda") true false

/-- C4 (bug evidence): the parallel root sync builds its rsync jobs from the
runner's `DeleteDest` flag, not `DeleteRoot`: with `DeleteRoot` set (and
`DeleteDest` clear) none of the five root-scope jobs carries `--delete`,
while with `DeleteDest` set every one does. -/
theorem root_sync_delete_follows_delete_dest :
    (parallelRootSyncJobs c4Runner (str "/mnt/clone")).isOk = true ∧
    ((parallelRootSyncJobs c4Runner (str "/mnt/clone")).toOption.getD []).length = 5 ∧
    ((parallelRootSyncJobs c4Runner (str "/mnt/clone")).toOption.getD []).all
      (fun j => !(j.contains (str "--delete"))) = true ∧
    ((parallelRootSyncJobs c4RunnerSwapped (str "/mnt/clone")).toOption.getD []).all
      (fun j => j.contains (str "--delete")) = true := by
  decide

def c7Runner : CommandRunner :=
  NewCommandRunner (str "/mnt/clone") [] [] [] (str "sda") false false

/-- C7 (bug evidence): the subtree `--exclude` pairs are appended to the
shared argument vector before the per-subtree jobs are built, so every one of
the four per-subtree jobs carries `--exclude` options for all four subtrees
(the claim says only the final rest job carries them). -/
theorem subtree_jobs_carry_subtree_excludes :
    (parallelRootSyncJobs c7Runner (str "/mnt/clone")).isOk = true ∧
    ((parallelRootSyncJobs c7Runner (str "/mnt/clone")).toOption.getD []).length = 5 ∧
    (((parallelRootSyncJobs c7Runner (str "/mnt/clone")).toOption.getD []).take 4).all
      (fun j => j.contains (str "--exclude") && j.contains (str "/usr/") &&
        j.contains (str "/var/") && j.contains (str "/home/") &&
        j.contains (str "/opt/")) = true := by
  decide

def c10Sys : SystemM :=
  { bootDisk := .ok (str "/dev/nvme0n1")
    mountedPartitions := fun _ => .ok [{ Device := str "/dev/nvme0n1", Mountpoint := str "/" }]
    allParts := fun _ => [] }

/-- C10: `partitionIndexFromDevice` falls back to the trailing digits when no
`p`-plus-digits suffix exists, so the whole-disk device `/dev/nvme0n1` yields
index 1, and the planner assigns a probed whole-disk nvme device the
partition index 1 rather than treating it as a non-partition. -/
theorem nvme_whole_disk_partition_index_one :
    partitionIndexFromDevice (str "/dev/nvme0n1") = 1 ∧
    ((PlanWithSystem c10Sys { Destination := str "sda" }).toOption.getD {}).Partitions.map
      PartitionPlan.Index = [1] := by
  decide

theorem filterMap_head_isSome_of_mem {α β : Type} (f : α → Option β) {l : List α} {x : α}
    (hx : x ∈ l) (hfx : (f x).isSome = true) : ((l.filterMap f).head?).isSome = true := by
  induction l with
  | nil => cases hx
  | cons a t ih =>
    cases hfa : f a with
    | some b => simp [List.filterMap_cons, hfa]
    | none =>
      rcases List.mem_cons.mp hx with h | h
      · rw [h, hfa] at hfx; cases hfx
      · simpa [List.filterMap_cons, hfa] using ih h

/-- C6: in the parallel root sync, an exit status of 23 is converted to
success for that job, and a job with any other non-zero exit status makes
the root sync return failure. -/
theorem root_sync_exit_23_tolerated
    (r : CommandRunner) (destRoot : Str) (env : ExecEnv) (jobs : List (List Str))
    (hjobs : parallelRootSyncJobs r destRoot = .ok jobs) :
    rootSyncJobOutcome (.exitCode 23) = none ∧
    ((∃ j, j ∈ jobs ∧ ∃ cd, env.runArgv j = .exitCode cd ∧ cd ≠ 0 ∧ cd ≠ 23) →
      (runParallelRootSyncM r destRoot env).isSome = true) := by
  refine ⟨by decide, ?_⟩
  rintro ⟨j, hj, cd, hc, hc0, hc23⟩
  have hout : ((fun j => rootSyncJobOutcome (env.runArgv j)) j).isSome = true := by
    simp only [hc, rootSyncJobOutcome]
    simp [hc0, hc23]
  have h := filterMap_head_isSome_of_mem (fun j => rootSyncJobOutcome (env.runArgv j)) hj hout
  simpa [runParallelRootSyncM, hjobs] using h

def c6Runner : CommandRunner :=
  NewCommandRunner (str "/mnt/clone") [] [] [] (str "sda") false false

def c6Env : ExecEnv :=
  { runShell := fun _ => .ok
    runArgv := fun _ => .exitCode 1
    mkdirOk := fun _ => true
    tempDir := none
    lsblkFsOut := fun _ => none }

def c6Jobs : List (List Str) :=
  (parallelRootSyncJobs c6Runner (str "/mnt/clone")).toOption.getD []

/-- Witness for C6: with every rsync job exiting 1, the root sync fails. -/
theorem root_sync_exit_23_tolerated_witness :
    parallelRootSyncJobs c6Runner (str "/mnt/clone") = .ok c6Jobs ∧
    rootSyncJobOutcome (.exitCode 23) = none ∧
    (runParallelRootSyncM c6Runner (str "/mnt/clone") c6Env).isSome = true := by
  have hne : c6Jobs ≠ [] := by decide
  have h := root_sync_exit_23_tolerated c6Runner (str "/mnt/clone") c6Env c6Jobs rfl
  exact ⟨rfl, h.1, h.2 ⟨c6Jobs.head hne, List.head_mem hne, 1, rfl, by decide, by decide⟩⟩

theorem foldl_append_eq_flatMap {α β : Type} (f : α → List β) (l : List α) (init : List β) :
    l.foldl (fun acc x => acc ++ f x) init = init ++ l.flatMap f := by
  induction l generalizing init with
  | nil => simp
  | cons a t ih => simp [List.foldl_cons, ih, List.flatMap_cons]

theorem foldl_max_init_le (l : List Int) (a : Int) : a ≤ l.foldl max a := by
  induction l generalizing a with
  | nil => exact le_refl a
  | cons b t ih => exact le_trans (le_max_left a b) (ih (max a b))

theorem foldl_max_mem_le (l : List Int) (a x : Int) (hx : x ∈ l) : x ≤ l.foldl max a := by
  induction l generalizing a with
  | nil => cases hx
  | cons b t ih =>
    rw [List.foldl_cons]
    rcases List.mem_cons.mp hx with h | h
    · subst h
      exact le_trans (le_max_right a x) (foldl_max_init_le t (max a x))
    · exact ih (max a b) h

theorem foldl_max_cases (l : List Int) (a : Int) : l.foldl max a = a ∨ l.foldl max a ∈ l := by
  induction l generalizing a with
  | nil => exact .inl rfl
  | cons b t ih =>
    rcases ih (max a b) with h | h
    · rw [List.foldl_cons, h]
      rcases max_choice a b with h2 | h2
      · exact .inl h2
      · exact .inr (by rw [h2]; exact List.mem_cons_self b t)
    · exact .inr (List.mem_cons_of_mem b h)

theorem lastNonSyncIdx_foldl (l : List PartitionPlan) (acc : Int) :
    l.foldl (fun acc part => if part.Index > acc && nonSyncAction part then part.Index else acc)
      acc = ((l.filter nonSyncAction).map PartitionPlan.Index).foldl max acc := by
  induction l generalizing acc with
  | nil => rfl
  | cons p t ih =>
    simp only [List.foldl_cons, List.filter_cons]
    by_cases hq : nonSyncAction p
    · have hmax : (if (decide (p.Index > acc) && nonSyncAction p) = true then p.Index else acc)
          = max acc p.Index := by
        rcases le_or_lt p.Index acc with h | h
        · have hd : decide (p.Index > acc) = false := by simp [not_lt.mpr h]
          rw [hd, Bool.false_and, if_neg (by simp), max_eq_left h]
        · have hd : decide (p.Index > acc) = true := by simp [h]
          rw [hd, hq]
          simp [max_eq_right (le_of_lt h)]
      rw [hmax, if_pos hq, List.map_cons, List.foldl_cons]
      exact ih (max acc p.Index)
    · have hacc : (if (decide (p.Index > acc) && nonSyncAction p) = true then p.Index else acc)
          = acc := by
        simp [hq]
      rw [hacc, if_neg hq]
      exact ih acc

/-- The largest element of a list of (positive) indices, seeded at 0. -/
def listMaxI (l : List Int) : Int := l.foldl max 0

/-- C5: `BuildExecutionSteps` produces exactly one `prepare-disk` step first
iff `Initialize` is set; then, for each partition in plan order, an
`initialize-partition` step iff the action is neither empty nor `sync`,
always followed by that partition's `sync-filesystem` step; and finally one
`grow-partition` step iff `Initialize` and `ExpandLastPartition` are both
set and some partition has a non-sync action, whose index is the largest
index among partitions with non-sync actions (partition indices are the
data model's positive integers). -/
theorem build_execution_steps_structure (plan : PlanResult) (opts : PlanOptions)
    (hpos : ∀ p ∈ plan.Partitions, 1 ≤ p.Index) :
    BuildExecutionSteps plan opts =
      (if opts.Initialize then [prepareDiskStep plan opts] else []) ++
      plan.Partitions.flatMap (stepsForPartition plan opts) ++
      (if opts.Initialize && opts.ExpandLastPartition && plan.Partitions.any nonSyncAction then
        [growStepAt opts
          (listMaxI ((plan.Partitions.filter nonSyncAction).map PartitionPlan.Index))]
       else []) ∧
    (plan.Partitions.any nonSyncAction = true →
      listMaxI ((plan.Partitions.filter nonSyncAction).map PartitionPlan.Index) ∈
        (plan.Partitions.filter nonSyncAction).map PartitionPlan.Index ∧
      ∀ i ∈ (plan.Partitions.filter nonSyncAction).map PartitionPlan.Index,
        i ≤ listMaxI ((plan.Partitions.filter nonSyncAction).map PartitionPlan.Index)) := by
  have hfold := lastNonSyncIdx_foldl plan.Partitions 0
  have hposmax : plan.Partitions.any nonSyncAction = true →
      (0 : Int) < listMaxI ((plan.Partitions.filter nonSyncAction).map PartitionPlan.Index) := by
    intro hany
    obtain ⟨p, hp, hq⟩ := List.any_eq_true.mp hany
    have h4 : p.Index ≤
        listMaxI ((plan.Partitions.filter nonSyncAction).map PartitionPlan.Index) :=
      foldl_max_mem_le _ 0 p.Index
        (List.mem_map_of_mem _ (List.mem_filter.mpr ⟨hp, hq⟩))
    have h5 : (1 : Int) ≤ p.Index := hpos p hp
    omega
  have hmem : plan.Partitions.any nonSyncAction = true →
      listMaxI ((plan.Partitions.filter nonSyncAction).map PartitionPlan.Index) ∈
        (plan.Partitions.filter nonSyncAction).map PartitionPlan.Index := by
    intro hany
    rcases foldl_max_cases ((plan.Partitions.filter nonSyncAction).map PartitionPlan.Index) 0
      with h | h
    · exfalso
      have h3 := hposmax hany
      simp only [listMaxI] at h3 h
      omega
    · exact h
  refine ⟨?_, fun hany => ⟨hmem hany, fun i hi => foldl_max_mem_le _ 0 i hi⟩⟩
  unfold BuildExecutionSteps
  rw [foldl_append_eq_flatMap, List.nil_append]
  congr 1
  unfold growTail lastNonSyncIdx
  rw [hfold]
  cases hI : opts.Initialize with
  | false => simp
  | true =>
    cases hE : opts.ExpandLastPartition with
    | false => simp
    | true =>
      cases hany : plan.Partitions.any nonSyncAction with
      | true =>
        have h3 := hposmax hany
        simp only [listMaxI] at h3
        simp [h3, listMaxI]
      | false =>
        have hfil : plan.Partitions.filter nonSyncAction = [] := by
          rw [List.filter_eq_nil_iff]
          intro p hp hq
          have hcontra : plan.Partitions.any nonSyncAction = true :=
            List.any_eq_true.mpr ⟨p, hp, hq⟩
          rw [hany] at hcontra
          cases hcontra
        simp [hfil]

def c5Plan : PlanResult :=
  { SourceDisk := str "/dev/mmcblk0"
    DestinationDisk := str "sda"
    Partitions :=
      [{ Index := 1, Device := str "/dev/mmcblk0p1", Mountpoint := str "/boot",
         Action := str "initialize+sync[clone-table]" },
       { Index := 2, Device := str "/dev/mmcblk0p2", Mountpoint := str "/",
         Action := str "initialize+sync[clone-table]" }] }

def c5Opts : PlanOptions :=
  { Destination := str "sda", Initialize := true, ExpandLastPartition := true }

/-- Witness for C5 at the two-partition mmcblk plan with initialize and
expand-last-partition set. -/
theorem build_execution_steps_structure_witness :
    (∀ p ∈ c5Plan.Partitions, 1 ≤ p.Index) ∧
    (BuildExecutionSteps c5Plan c5Opts =
      (if c5Opts.Initialize then [prepareDiskStep c5Plan c5Opts] else []) ++
      c5Plan.Partitions.flatMap (stepsForPartition c5Plan c5Opts) ++
      (if c5Opts.Initialize && c5Opts.ExpandLastPartition &&
          c5Plan.Partitions.any nonSyncAction then
        [growStepAt c5Opts
          (listMaxI ((c5Plan.Partitions.filter nonSyncAction).map PartitionPlan.Index))]
       else []) ∧
    (c5Plan.Partitions.any nonSyncAction = true →
      listMaxI ((c5Plan.Partitions.filter nonSyncAction).map PartitionPlan.Index) ∈
        (c5Plan.Partitions.filter nonSyncAction).map PartitionPlan.Index ∧
      ∀ i ∈ (c5Plan.Partitions.filter nonSyncAction).map PartitionPlan.Index,
        i ≤ listMaxI ((c5Plan.Partitions.filter nonSyncAction).map PartitionPlan.Index))) :=
  ⟨by decide, build_execution_steps_structure c5Plan c5Opts (by decide)⟩

/-- The identity-bearing projection of a partition plan: index, source
device, mountpoint (everything except the action tag). -/
def planPartKey (p : PartitionPlan) : Int × Str × Str := (p.Index, p.Device, p.Mountpoint)

theorem applyInitActions_map_key (opts : PlanOptions) (l : List PartitionPlan) :
    (applyInitActions opts l).map planPartKey = l.map planPartKey := by
  unfold applyInitActions
  by_cases hI : opts.Initialize
  · by_cases hF : opts.ForceTwoPartitions
    · simp only [hI, hF, if_true, List.map_map]
      apply List.map_congr_left
      intro a ha
      by_cases h2 : a.Index > 2 <;> simp [planPartKey, h2]
    · simp only [hI, hF, if_true, Bool.false_eq_true, if_false, List.map_map]
      apply List.map_congr_left
      intro a ha
      simp [planPartKey]
  · simp [hI]

theorem filterMountDirs_sublist (opts : PlanOptions) (l : List PartitionPlan) :
    (filterMountDirs opts l).Sublist l := by
  unfold filterMountDirs
  by_cases h1 : opts.MountDirs ≠ []
  · rw [if_pos h1]
    by_cases h2 : l.filter (fun pp =>
        pp.Mountpoint = str "/" ||
          opts.MountDirs.any (fun m => goTrimSpace m = pp.Mountpoint)) ≠ []
    · rw [if_pos h2]
      exact List.filter_sublist l
    · rw [if_neg h2]
  · rw [if_neg h1]

/-- C9 (amended): every `PlanResult` returned without error by
`PlanWithSystem` respects the source's partition order and indices: its
partition list projects (index, device, mountpoint)-wise to a sublist of
the canonical per-probed-partition list (or of the two-entry stub when
nothing was probed), and its `DestinationDisk` is the options' destination.
The original claim's second half is false: the planner never compares the
destination with the source at the base-disk level (see the
counterexample), leaving that rejection to `ValidateCloneSafety`. -/
theorem plan_partitions_respect_probe_order
    (sys : SystemM) (opts : PlanOptions) (plan : PlanResult)
    (h : PlanWithSystem sys opts = .ok plan) :
    ∃ srcDev parts0,
      sys.bootDisk = .ok srcDev ∧
      sys.mountedPartitions (baseDiskFromDevice srcDev) = .ok parts0 ∧
      plan.SourceDisk = baseDiskFromDevice srcDev ∧
      plan.DestinationDisk = opts.Destination ∧
      (plan.Partitions.map planPartKey).Sublist
        ((let parts := if opts.AllSync then parts0 ++ sys.allParts (baseDiskFromDevice srcDev)
            else parts0
          if buildPlanParts parts = [] then stubPlanParts else buildPlanParts parts).map
          planPartKey) := by
  unfold PlanWithSystem at h
  by_cases hd : opts.Destination = []
  · simp [hd] at h
  · rw [if_neg hd] at h
    cases hb : sys.bootDisk with
    | error e => rw [hb] at h; exact Except.noConfusion h
    | ok srcDev =>
      simp only [hb] at h
      cases hm : sys.mountedPartitions (baseDiskFromDevice srcDev) with
      | error e => simp only [hm] at h; exact Except.noConfusion h
      | ok parts0 =>
        simp only [hm, Except.ok.injEq] at h
        refine ⟨srcDev, parts0, rfl, hm, ?_, ?_, ?_⟩
        · rw [← h]
        · rw [← h]
        · rw [← h]
          simp only [planPartsOf]
          rw [applyInitActions_map_key]
          exact (filterMountDirs_sublist opts _).map planPartKey

def c9Sys : SystemM :=
  { bootDisk := .ok (str "/dev/sda2")
    mountedPartitions := fun _ => .ok [{ Device := str "/dev/sda2", Mountpoint := str "/" }]
    allParts := fun _ => [] }

/-- C9 counterexample: with boot device `/dev/sda2` and destination `sda`,
`PlanWithSystem` returns a plan without error whose destination equals its
source at the base-disk level — the claimed invariant does not hold of the
planner's output. -/
theorem plan_destination_can_equal_source_cex :
    (PlanWithSystem c9Sys { Destination := str "sda" }).isOk = true ∧
    sameDisk ((PlanWithSystem c9Sys { Destination := str "sda" }).toOption.getD {}).SourceDisk
      ((PlanWithSystem c9Sys { Destination := str "sda" }).toOption.getD {}).DestinationDisk
      = true := by
  decide

def c9WSys : SystemM :=
  { bootDisk := .ok (str "/dev/mmcblk0p2")
    mountedPartitions := fun _ =>
      .ok [{ Device := str "/dev/mmcblk0p1", Mountpoint := str "/boot" },
           { Device := str "/dev/mmcblk0p2", Mountpoint := str "/" }]
    allParts := fun _ => [] }

/-- Witness for the amended C9 at the standard two-partition mmcblk probe. -/
theorem plan_partitions_respect_probe_order_witness :
    PlanWithSystem c9WSys { Destination := str "sda" } =
      .ok ((PlanWithSystem c9WSys { Destination := str "sda" }).toOption.getD {}) ∧
    (∃ srcDev parts0,
      c9WSys.bootDisk = .ok srcDev ∧
      c9WSys.mountedPartitions (baseDiskFromDevice srcDev) = .ok parts0 ∧
      ((PlanWithSystem c9WSys { Destination := str "sda" }).toOption.getD {}).SourceDisk =
        baseDiskFromDevice srcDev ∧
      ((PlanWithSystem c9WSys { Destination := str "sda" }).toOption.getD {}).DestinationDisk =
        PlanOptions.Destination { Destination := str "sda" } ∧
      ((((PlanWithSystem c9WSys { Destination := str "sda" }).toOption.getD {}).Partitions.map
          planPartKey).Sublist
        ((let parts := if PlanOptions.AllSync { Destination := str "sda" } then
            parts0 ++ c9WSys.allParts (baseDiskFromDevice srcDev) else parts0
          if buildPlanParts parts = [] then stubPlanParts else buildPlanParts parts).map
          planPartKey))) :=
  ⟨rfl,
    plan_partitions_respect_probe_order c9WSys { Destination := str "sda" }
      ((PlanWithSystem c9WSys { Destination := str "sda" }).toOption.getD {}) rfl⟩

theorem intChars_ofNat (n : Nat) : intChars (Int.ofNat n) = natChars n := by
  have h : ¬ (Int.ofNat n < 0) := not_lt.mpr (Int.ofNat_nonneg n)
  simp [intChars, h]

theorem natChars_digit (N : Nat) (h1 : 1 ≤ N) (h9 : N ≤ 9) :
    natChars N = [Char.ofNat (48 + N)] := by
  interval_cases N <;> decide

theorem digit_char_facts (N : Nat) (h1 : 1 ≤ N) (h9 : N ≤ 9) :
    isDigitChar (Char.ofNat (48 + N)) = true ∧ Char.ofNat (48 + N) ≠ 'p' ∧
      goAtoi [Char.ofNat (48 + N)] = some (Int.ofNat N) := by
  interval_cases N <;> exact ⟨by decide, by decide, by decide⟩

theorem letter_not_digit (c : Char) (h : isLowerAlpha c = true) : isDigitChar c = false := by
  have h1 : 97 ≤ c.toNat ∧ c.toNat ≤ 122 := by simpa [isLowerAlpha] using h
  simp only [isDigitChar, Bool.and_eq_false_iff, decide_eq_false_iff_not]
  right
  omega

theorem letter_facts (c : Char) (h : isLowerAlpha c = true) : c ≠ '+' ∧ c ≠ '-' := by
  constructor <;> intro heq <;> rw [heq] at h <;> exact absurd h (by decide)

theorem goAtoi_cons_letter (a : Char) (t : Str) (ha : isLowerAlpha a = true) :
    goAtoi (a :: t) = none := by
  obtain ⟨h1, h2⟩ := letter_facts a ha
  have h3 : isDigitChar a = false := letter_not_digit a ha
  have h4 : digitsVal? (a :: t) = none := by
    unfold digitsVal?
    rw [if_neg (by simp)]
    rw [if_neg (by simp [List.all_cons, h3])]
  simp only [goAtoi]
  rw [if_neg h1, if_neg h2, h4]
  rfl

theorem afterLastP_append_p (name : Str) (d : Char) (hd : d ≠ 'p') :
    afterLastP (name ++ 'p' :: [d]) = some [d] := by
  unfold afterLastP
  rw [if_pos (by simp)]
  simp [List.reverse_append, List.takeWhile_cons, hd]

theorem afterLastP_append_digit_mem (name : Str) (d : Char) (hd : d ≠ 'p')
    (hp : 'p' ∈ name) :
    afterLastP (name ++ [d]) =
      some ((name.reverse.takeWhile (fun c => c ≠ 'p')).reverse ++ [d]) := by
  unfold afterLastP
  rw [if_pos (by simp [hp])]
  simp [List.reverse_append, List.takeWhile_cons, hd]

theorem afterLastP_append_digit_not_mem (name : Str) (d : Char) (hd : d ≠ 'p')
    (hp : ¬ 'p' ∈ name) : afterLastP (name ++ [d]) = none := by
  unfold afterLastP
  rw [if_neg (by simp [hp, Ne.symm hd])]

theorem takeWhile_digits_nil_of_letters (l : Str) (h : l.all isLowerAlpha = true) :
    l.reverse.takeWhile isDigitChar = [] := by
  cases hrev : l.reverse with
  | nil => rfl
  | cons c t =>
    have hc : c ∈ l := List.mem_reverse.mp (hrev ▸ List.mem_cons_self c t)
    have hl : isLowerAlpha c = true := List.all_eq_true.mp h c hc
    simp [List.takeWhile_cons, letter_not_digit c hl]

theorem trailingDigits_append_digit (name : Str) (d : Char) (hd : isDigitChar d = true)
    (hrest : name.reverse.takeWhile isDigitChar = []) :
    trailingDigits (name ++ [d]) = [d] := by
  unfold trailingDigits
  simp [List.reverse_append, List.takeWhile_cons, hd, hrest]

/-- The inverse mapping on `mmcblk`/`nvme`-style partition devices:
`/dev/<name>p<N>` yields index `N` for a single-digit `N`, for any basename. -/
theorem partitionIndexFromDevice_pN (name : Str) (N : Nat) (h1 : 1 ≤ N) (h9 : N ≤ 9) :
    partitionIndexFromDevice (str "/dev/" ++ name ++ 'p' :: natChars N) = Int.ofNat N := by
  obtain ⟨hdig, hdp, hatoi⟩ := digit_char_facts N h1 h9
  rw [natChars_digit N h1 h9]
  unfold partitionIndexFromDevice
  rw [List.append_assoc, goTrimPrefix_append]
  rw [if_neg (by simp)]
  rw [afterLastP_append_p name _ hdp]
  simp [hatoi]

/-- The inverse mapping on `sd`-style partition devices: `/dev/<name><N>`
yields index `N` for a single-digit `N`, when the basename is `sd` followed
by lowercase letters. -/
theorem partitionIndexFromDevice_sdN (name : Str) (N : Nat) (h1 : 1 ≤ N) (h9 : N ≤ 9)
    (hall : name.all isLowerAlpha = true) :
    partitionIndexFromDevice (str "/dev/" ++ name ++ natChars N) = Int.ofNat N := by
  obtain ⟨hdig, hdp, hatoi⟩ := digit_char_facts N h1 h9
  rw [natChars_digit N h1 h9]
  set d := Char.ofNat (48 + N) with hdd
  have hfallback : (if trailingDigits (name ++ [d]) = [] then (0 : Int)
      else match goAtoi (trailingDigits (name ++ [d])) with
        | some n => n
        | none => 0) = Int.ofNat N := by
    rw [trailingDigits_append_digit name d hdig (takeWhile_digits_nil_of_letters name hall)]
    simp [hatoi]
  unfold partitionIndexFromDevice
  rw [List.append_assoc, goTrimPrefix_append]
  rw [if_neg (by simp)]
  by_cases hp : 'p' ∈ name
  · rw [afterLastP_append_digit_mem name d hdp hp]
    cases ht : name.reverse.takeWhile (fun c => c ≠ 'p') with
    | nil =>
      simp only [ht, List.reverse_nil, List.nil_append]
      simp [hatoi]
    | cons a t =>
      have hbr : ∃ b rest, (a :: t).reverse = b :: rest := by
        cases h : (a :: t).reverse with
        | nil => exact absurd h (by simp)
        | cons b rest => exact ⟨b, rest, rfl⟩
      obtain ⟨b, rest, hbr⟩ := hbr
      have hbname : b ∈ name := by
        have h5 : b ∈ name.reverse.takeWhile (fun c => c ≠ 'p') := by
          rw [ht]
          exact List.mem_reverse.mp (hbr ▸ List.mem_cons_self b rest)
        exact List.mem_reverse.mp ((List.takeWhile_prefix _).sublist.subset h5)
      have hlb : isLowerAlpha b = true := List.all_eq_true.mp hall b hbname
      simp only [hbr, List.cons_append, ne_eq, reduceCtorEq, not_false_eq_true, if_true,
        goAtoi_cons_letter b (rest ++ [d]) hlb]
      exact hfallback
  · rw [afterLastP_append_digit_not_mem name d hdp hp]
    exact hfallback

/-- The three device-name families of the spec: `mmcblk*`, `nvme*` and
`sd`-style basenames (lowercase letters). -/
def isDeviceFamilyBase (name : Str) : Bool :=
  goHasPrefix name (str "mmcblk") || goHasPrefix name (str "nvme") ||
    (goHasPrefix name (str "sd") && name.all isLowerAlpha)

/-- C8: for every base disk name in the three device families and every
`N` in 1..9, deriving the partition device and reading its index back
round-trips:
`partitionDevice base (partitionIndexFromDevice (partitionDevice base N))
 = partitionDevice base N`. -/
theorem partition_device_index_roundtrip (disk : Str) (N : Nat) (h1 : 1 ≤ N) (h9 : N ≤ 9)
    (hfam : isDeviceFamilyBase (goTrimPrefix (ensureDevPrefix disk) (str "/dev/")) = true) :
    partitionDevice disk (partitionIndexFromDevice (partitionDevice disk (Int.ofNat N))) =
      partitionDevice disk (Int.ofNat N) := by
  suffices h : partitionIndexFromDevice (partitionDevice disk (Int.ofNat N)) = Int.ofNat N by
    rw [h]
  unfold partitionDevice
  by_cases hmn : goHasPrefix (goTrimPrefix (ensureDevPrefix disk) (str "/dev/")) (str "mmcblk")
      || goHasPrefix (goTrimPrefix (ensureDevPrefix disk) (str "/dev/")) (str "nvme")
  · rw [if_pos hmn, intChars_ofNat]
    exact partitionIndexFromDevice_pN _ N h1 h9
  · rw [if_neg hmn, intChars_ofNat]
    have hall : (goTrimPrefix (ensureDevPrefix disk) (str "/dev/")).all isLowerAlpha = true := by
      unfold isDeviceFamilyBase at hfam
      rw [Bool.eq_false_iff.mpr hmn] at hfam
      simp only [Bool.false_or, Bool.and_eq_true] at hfam
      exact hfam.2
    exact partitionIndexFromDevice_sdN _ N h1 h9 hall

/-- Witness for C8 at the three family representatives and N = 2. -/
theorem partition_device_index_roundtrip_witness :
    (1 ≤ 2 ∧ 2 ≤ 9) ∧
    isDeviceFamilyBase (goTrimPrefix (ensureDevPrefix (str "sda")) (str "/dev/")) = true ∧
    isDeviceFamilyBase (goTrimPrefix (ensureDevPrefix (str "mmcblk0")) (str "/dev/")) = true ∧
    partitionDevice (str "sda")
      (partitionIndexFromDevice (partitionDevice (str "sda") (Int.ofNat 2))) =
      partitionDevice (str "sda") (Int.ofNat 2) ∧
    partitionDevice (str "mmcblk0")
      (partitionIndexFromDevice (partitionDevice (str "mmcblk0") (Int.ofNat 2))) =
      partitionDevice (str "mmcblk0") (Int.ofNat 2) :=
  ⟨⟨by decide, by decide⟩, by decide, by decide,
    partition_device_index_roundtrip (str "sda") 2 (by decide) (by decide) (by decide),
    partition_device_index_roundtrip (str "mmcblk0") 2 (by decide) (by decide) (by decide)⟩

end Klon
